import Mathlib

/-!
Verification of the slack-messages indexing and search core.

The definitions below are a shallow embedding of the TypeScript sources:

* `src/types.ts`            — record types (`Msg` mirrors `IndexedMessage`,
                              `IndexStats`, `SearchResult`, …) and `slackTsToUnix`;
* `src/indexer.ts`          — `buildIndexModel` (`buildIndex`), `updateIndexModel`
                              (`updateIndex`), the `INSERT OR IGNORE` store
                              (`insertMsg` / `insertBatch`) and the per-conversation
                              cursor bookkeeping (`cursorAdvance`);
* `src/searcher.ts`         — `searchModel` (`search`), `searchBySender`,
                              `searchByText`, `contextBefore` / `contextAfter`
                              (the two SQL context queries) and `getContactsModel`
                              (`getContacts`).

Modelling conventions:

* The SQLite `messages` table is a `List Msg` in insertion order; the auto
  increment `id` column is the list position and is not modelled separately.
  `INSERT OR IGNORE` with `ts TEXT UNIQUE` becomes `insertMsg`: a message whose
  `ts` is already present is dropped, otherwise it is appended.
* SQL `ORDER BY … LIMIT n` is `List.insertionSort` (a sorted permutation, as in
  SQLite) followed by `List.take n`.
* `LOWER(x) LIKE '%' || p || '%'` and JavaScript `String.includes` become
  `List.isInfixOf` over lowercased character lists (`lowerData`); JavaScript
  `toLowerCase` / SQLite `LOWER` become `Char.toLower` per character.
* JavaScript string comparison (`msg.ts > cursor`) is lexicographic over code
  units; it is modelled by `strLt`, lexicographic comparison of the code points
  of the two strings.
* A JavaScript `Record<string, string>` is an association list with
  update-in-place / append-if-absent semantics (`cursorSet` / `cursorGet`).
* JavaScript optional / falsy parameters (`from`, `after`, a missing cursor)
  become `Option`; the empty string passed as `from` behaves like `none` in the
  source (`if (from && …)`) and callers pass `none` for it.
* The MiniSearch index is abstracted as a ranking function
  `index : String → List SearchResult` returning the ranked matches of a query;
  its `filter` search option is applied to that list (MiniSearch applies the
  predicate to every candidate before any truncation), which is how
  `searchByText` consumes it.
* `better-sqlite3` opening a missing database file (`getDb`) is the `none` case
  of the `Option (List Msg)` handle taken by `searchModel`; the thrown error is
  the `Except.error` branch.
* Dates (`Date.now`, `getTime() / 1000`) are `Nat` seconds.
-/

namespace SlackMessages

/-- Stored message record, mirroring `IndexedMessage` in `src/types.ts` and one
row of the `messages` table created in `buildIndex`. -/
structure Msg where
  ts : String
  text : String
  sender : String
  chatName : String
  chatId : String
  date : Nat
  isFromMe : Bool
  threadTs : Option String
deriving DecidableEq

/-- Persisted corpus statistics, mirroring `IndexStats` in `src/types.ts`.
`conversationCursors` is the `channelId → last indexed ts` record. -/
structure IndexStats where
  totalMessages : Nat
  totalChats : Nat
  totalContacts : Nat
  indexedAt : Nat
  oldestMessage : Nat
  newestMessage : Nat
  workspaceId : String
  workspaceName : String
  conversationCursors : List (String × String)
deriving DecidableEq

/-- Cached workspace user, mirroring `SlackUser` in `src/types.ts`. -/
structure SlackUser where
  id : String
  name : String
  realName : String
  displayName : String
deriving DecidableEq

/-- Conversation as listed by `listConversations` (the fields `updateIndex`
and `buildIndex` actually read). -/
structure Conv where
  id : String
  name : String
  isIm : Bool
  userId : Option String
deriving DecidableEq

/-- Raw message as returned by `getConversationHistory` / `getThreadReplies`
(the fields the indexer reads). -/
structure RawMsg where
  ts : String
  user : String
  text : String
  threadTs : Option String
deriving DecidableEq

/-- Result of `auth.test` as used by the indexer. -/
structure AuthInfo where
  userId : String
  teamId : String
  teamName : String
deriving DecidableEq

/-- Search result with relevance score, mirroring `SearchResult` in
`src/types.ts`. -/
structure SearchResult where
  message : Msg
  score : ℚ
  matchedTerms : List String
deriving DecidableEq

/-- Search result with surrounding context, mirroring
`SearchResultWithContext`. -/
structure SearchResultWithContext where
  result : SearchResult
  before : List Msg
  after : List Msg
deriving DecidableEq

/-- Search options, mirroring `SearchOptions` in `src/types.ts` (`from` is a
reserved word in Lean, hence `fro`). -/
structure SearchOptions where
  query : Option String
  fro : Option String
  after : Option Nat
  limit : Nat
  context : Nat
deriving DecidableEq

/-- Contact aggregate, mirroring `ContactInfo` in `src/searcher.ts`. -/
structure ContactInfo where
  name : String
  lastMessageDate : Nat
  messageCount : Nat
deriving DecidableEq

/-! ### String helpers -/

/-- Lowercased code points of a string: models JavaScript `toLowerCase` and
SQLite `LOWER` for the ASCII range both implement. -/
def lowerData (s : String) : List Char :=
  s.data.map Char.toLower

/-- Boolean prefix test on code-point lists. -/
def startsWithB : List Char → List Char → Bool
  | [], _ => true
  | _ :: _, [] => false
  | a :: as, b :: bs => a == b && startsWithB as bs

/-- Boolean contiguous-substring test on code-point lists: models JavaScript
`String.includes` and SQLite `LIKE '%' || p || '%'` (`needleIn needle hay`). -/
def needleIn (needle hay : List Char) : Bool :=
  match hay with
  | [] => needle.isEmpty
  | _ :: t => startsWithB needle hay || needleIn needle t

/-- Lexicographic comparison of code-point lists: models JavaScript `<` / `>`
on strings, which compares code units left to right. -/
def charListLt : List Char → List Char → Bool
  | [], [] => false
  | [], _ :: _ => true
  | _ :: _, [] => false
  | a :: as, b :: bs =>
    if a.toNat < b.toNat then true
    else if b.toNat < a.toNat then false
    else charListLt as bs

/-- JavaScript string `<`, used by the cursor updates `msg.ts > cursor`. -/
def strLt (a b : String) : Bool :=
  charListLt a.data b.data

/-- `slackTsToUnix` from `src/types.ts`: `Math.floor(Number.parseFloat(ts))`,
i.e. the integer-second prefix of a Slack `ts` such as `"1234567890.123456"`. -/
def slackTsToUnix (ts : String) : Nat :=
  (ts.data.takeWhile Char.isDigit).foldl (fun n c => n * 10 + (c.toNat - 48)) 0

/-! ### Structured store: `INSERT OR IGNORE` keyed on the unique `ts` column -/

/-- Does the store already hold a record with this `ts`? (the `ts TEXT UNIQUE`
constraint consulted by `INSERT OR IGNORE`). -/
def hasTs (store : List Msg) (t : String) : Bool :=
  store.any (fun m => m.ts == t)

/-- One `INSERT OR IGNORE` statement run: a duplicate `ts` is silently ignored
(first write wins), otherwise the row is appended. -/
def insertMsg (store : List Msg) (m : Msg) : List Msg :=
  if hasTs store m.ts then store else store ++ [m]

/-- `insertBatch` from `buildIndex`/`updateIndex`: the prepared insert run over
a batch inside one transaction. -/
def insertBatch (store : List Msg) (batch : List Msg) : List Msg :=
  batch.foldl insertMsg store

/-- The `ts` column holds pairwise distinct values. -/
def tsNodup (store : List Msg) : Prop :=
  (store.map (fun m => m.ts)).Nodup

/-! ### Cursor registry (`Record<string, string>` of `channelId → ts`) -/

/-- Read a key of the cursor record. -/
def cursorGet : List (String × String) → String → Option String
  | [], _ => none
  | p :: ps, k => if p.1 == k then some p.2 else cursorGet ps k

/-- Write a key of the cursor record (update in place, append if absent). -/
def cursorSet : List (String × String) → String → String → List (String × String)
  | [], k, v => [(k, v)]
  | p :: ps, k, v => if p.1 == k then (k, v) :: cursorSet ps k v else p :: cursorSet ps k v

/-- The cursor update in both sync paths:
`if (!cursors[id] || msg.ts > cursors[id]) cursors[id] = msg.ts`
(a missing or empty cursor is falsy in JavaScript). -/
def cursorAdvance (cs : List (String × String)) (k t : String) : List (String × String) :=
  match cursorGet cs k with
  | none => cursorSet cs k t
  | some cur => if cur == "" || strLt cur t then cursorSet cs k t else cs

/-- Value the cursor of a key takes after one `cursorAdvance` against it. -/
def advVal : Option String → String → String
  | none, t => t
  | some cur, t => if cur == "" || strLt cur t then t else cur

/-! ### User and conversation name resolution (`buildIndex` / `updateIndex`) -/

/-- `resolveUserName`: display name → real name → username → raw id, first
non-empty wins. -/
def resolveUserName (users : List SlackUser) (userId : String) : String :=
  match users.find? (fun u => u.id == userId) with
  | none => userId
  | some u =>
    if u.displayName != "" then u.displayName
    else if u.realName != "" then u.realName
    else if u.name != "" then u.name
    else userId

/-- `resolveConversationName`: a direct message is named after the counterpart
user, everything else keeps its own name. -/
def resolveConvName (users : List SlackUser) (c : Conv) : String :=
  match c.userId with
  | some uid => if c.isIm then resolveUserName users uid else c.name
  | none => c.name

/-- Normalisation of one raw message into a stored record, as performed by the
prepared insert in `buildIndex`/`updateIndex`. -/
def normalizeMsg (users : List SlackUser) (authUserId : String)
    (convId convName : String) (r : RawMsg) : Msg :=
  { ts := r.ts
    text := r.text
    sender := resolveUserName users r.user
    chatName := convName
    chatId := convId
    date := slackTsToUnix r.ts
    isFromMe := r.user == authUserId
    threadTs := r.threadTs }

/-! ### Message collection during a sync

A conversation's fetch result is the list of its history messages, each paired
with the thread replies fetched for it (`getConversationHistory` followed by
`getThreadReplies` for messages with `replyCount > 0`; a plain message carries
`[]`).  `getThreadReplies` stamps every reply with the parent's `ts` as
`threadTs`, which `stepMsg` reproduces. -/

/-- Per-conversation fetch result: history messages with their thread replies. -/
abbrev Fetch := List (RawMsg × List RawMsg)

/-- One iteration of the per-message loop of `updateIndex`: push the history
message, push its replies, then advance the conversation cursor with the
history message's `ts` (only the history message's — see `updateIndex`). -/
def stepMsg (users : List SlackUser) (authUserId : String) (convId convName : String)
    (acc : List Msg × List (String × String)) (mf : RawMsg × List RawMsg) :
    List Msg × List (String × String) :=
  let m := mf.1
  let msgs := acc.1 ++ [normalizeMsg users authUserId convId convName m]
      ++ mf.2.map (fun rep =>
          normalizeMsg users authUserId convId convName { rep with threadTs := some m.ts })
  (msgs, cursorAdvance acc.2 convId m.ts)

/-- The per-conversation loop body of `updateIndex`. -/
def stepConv (users : List SlackUser) (authUserId : String)
    (acc : List Msg × List (String × String)) (cf : Conv × Fetch) :
    List Msg × List (String × String) :=
  cf.2.foldl (stepMsg users authUserId cf.1.id (resolveConvName users cf.1)) acc

/-- The whole fetch phase of `updateIndex`: collected `newMessages` together
with the `updatedCursors` record (started from a copy of the existing one). -/
def collectNew (users : List SlackUser) (authUserId : String)
    (convs : List (Conv × Fetch)) (cursors : List (String × String)) :
    List Msg × List (String × String) :=
  convs.foldl (stepConv users authUserId) ([], cursors)

/-! ### Ordering relations used by the SQL `ORDER BY` clauses -/

/-- `ORDER BY date DESC` on messages. -/
def descDate (a b : Msg) : Prop := b.date ≤ a.date

instance : DecidableRel descDate := fun a b => Nat.decLe b.date a.date

instance : IsTotal Msg descDate := ⟨fun a b => (le_total b.date a.date)⟩

instance : IsTrans Msg descDate := ⟨fun _ _ _ h1 h2 => le_trans h2 h1⟩

/-- `ORDER BY date ASC` on messages. -/
def ascDate (a b : Msg) : Prop := a.date ≤ b.date

instance : DecidableRel ascDate := fun a b => Nat.decLe a.date b.date

instance : IsTotal Msg ascDate := ⟨fun a b => (le_total a.date b.date)⟩

instance : IsTrans Msg ascDate := ⟨fun _ _ _ h1 h2 => le_trans h1 h2⟩

/-- `ORDER BY lastMessageDate DESC` on contact aggregates. -/
def contactDesc (a b : ContactInfo) : Prop := b.lastMessageDate ≤ a.lastMessageDate

instance : DecidableRel contactDesc := fun a b => Nat.decLe b.lastMessageDate a.lastMessageDate

instance : IsTotal ContactInfo contactDesc := ⟨fun a b => (le_total b.lastMessageDate a.lastMessageDate)⟩

instance : IsTrans ContactInfo contactDesc := ⟨fun _ _ _ h1 h2 => le_trans h2 h1⟩

/-! ### Full sync: `buildIndex` -/

/-- `buildIndex` from `src/indexer.ts`, modelled from the fetch results down to
the persisted stats: collect all messages (history plus thread replies), create
a fresh store with `INSERT OR IGNORE`, read it back ordered by date, compute
the stats sets from the read-back rows, track oldest/newest over the raw
stream, and track cursors over the whole raw stream (thread replies included
on this path). -/
def buildIndexModel (users : List SlackUser) (auth : AuthInfo)
    (convs : List (Conv × Fetch)) (now : Nat) : IndexStats × List Msg :=
  let allMessages := (collectNew users auth.userId convs []).1
  let store := insertBatch [] allMessages
  let readBack := store.insertionSort ascDate
  let cursors := allMessages.foldl (fun cs m => cursorAdvance cs m.chatId m.ts) []
  let oldest := allMessages.foldl
    (fun a m => match a with
      | none => some m.date
      | some x => some (Nat.min x m.date)) none
  let newest := allMessages.foldl (fun a m => Nat.max a m.date) 0
  ({ totalMessages := readBack.length
     totalChats := (readBack.map (fun m => m.chatId)).dedup.length
     totalContacts := (readBack.map (fun m => m.sender)).dedup.length
     indexedAt := now
     oldestMessage := oldest.getD now
     newestMessage := if newest = 0 then now else newest
     workspaceId := auth.teamId
     workspaceName := auth.teamName
     conversationCursors := cursors }, store)

/-! ### Incremental sync: `updateIndex` -/

/-- `updateIndex` from `src/indexer.ts`: `none` models the early `return null`
when no cursor registry exists; otherwise the fetched messages are inserted
with `INSERT OR IGNORE`, the rows whose `ts` was observed this sync are read
back (`WHERE ts IN (…)`), and the stats are carried forward with
`totalMessages` increased by the number of read-back rows while `totalChats`
and `totalContacts` keep their previous values. -/
def updateIndexModel (existing : IndexStats) (store : List Msg)
    (users : List SlackUser) (authUserId : String)
    (convs : List (Conv × Fetch)) (now : Nat) : Option (IndexStats × List Msg) :=
  if existing.conversationCursors.isEmpty then none
  else
    let collected := collectNew users authUserId convs existing.conversationCursors
    if collected.1.isEmpty then
      some ({ existing with indexedAt := now, conversationCursors := collected.2 }, store)
    else
      let store2 := insertBatch store collected.1
      let tsList := collected.1.map (fun m => m.ts)
      let newRows := store2.filter (fun m => tsList.contains m.ts)
      let newest := newRows.foldl
        (fun acc m => if acc < m.date then m.date else acc) existing.newestMessage
      some ({ totalMessages := existing.totalMessages + newRows.length
              totalChats := existing.totalChats
              totalContacts := existing.totalContacts
              indexedAt := now
              oldestMessage := existing.oldestMessage
              newestMessage := newest
              workspaceId := existing.workspaceId
              workspaceName := existing.workspaceName
              conversationCursors := collected.2 }, store2)

/-! ### Search engine: `src/searcher.ts` -/

/-- Row predicate of the `searchBySender` SQL query:
`LOWER(sender) LIKE '%' || lower(from) || '%' AND is_from_me = 0 AND date >= ?`. -/
def bySenderPred (fro : String) (afterTimestamp : Nat) (m : Msg) : Bool :=
  needleIn (lowerData fro) (lowerData m.sender)
    && (!m.isFromMe) && decide (afterTimestamp ≤ m.date)

/-- `searchBySender`: direct SQLite query for sender-only searches; flat score
`1.0`, no matched terms, newest first, at most `limit` rows. -/
def searchBySender (store : List Msg) (fro : String) (after : Option Nat)
    (limit : Nat) : List SearchResult :=
  let afterTimestamp := after.getD 0
  let rows := ((store.filter (bySenderPred fro afterTimestamp)).insertionSort descDate).take limit
  rows.map (fun m => { message := m, score := 1, matchedTerms := [] })

/-- The MiniSearch `filter` option built in `searchByText` when `from` is
present: keep candidates not authored by the caller whose sender contains the
pattern case-insensitively. -/
def senderPred (fro : String) (r : SearchResult) : Bool :=
  (!r.message.isFromMe) && needleIn (lowerData fro) (lowerData r.message.sender)

/-- The candidate list `miniSearch.search(query, {…, filter})` produces:
all ranked matches of the query, with the sender predicate applied to each
candidate when `from` is present. -/
def fuzzyFiltered (index : String → List SearchResult) (q : String)
    (fro : Option String) : List SearchResult :=
  match fro with
  | some f => (index q).filter (senderPred f)
  | none => index q

/-- `searchByText`: fuzzy search with optional sender/date filters.  With any
filter present the candidate list is cut at `20 × limit`
(`searchLimit = hasFilters ? limit * 20 : limit`), the date floor is then
applied (skipped when the floor is `0`, a falsy number in JavaScript), and the
result is truncated to `limit`. -/
def searchByText (index : String → List SearchResult) (q : String)
    (fro : Option String) (after : Option Nat) (limit : Nat) : List SearchResult :=
  let fuzzyResults := fuzzyFiltered index q fro
  if fuzzyResults.isEmpty then []
  else
    let searchLimit := if fro.isSome || after.isSome then limit * 20 else limit
    let res1 := fuzzyResults.take searchLimit
    let res2 := match after with
      | some a => if a ≠ 0 then res1.filter (fun r : SearchResult => decide (a ≤ r.message.date)) else res1
      | none => res1
    res2.take limit

/-- Whether the options carry a usable text query:
`query && query !== '*' && query.trim() !== ''`. -/
def hasTextQuery : Option String → Bool
  | none => false
  | some q => q != "*" && q.data.any (fun c => !c.isWhitespace)

/-- The before-context SQL query:
`WHERE chat_id = ? AND date < ? ORDER BY date DESC LIMIT ?`, then `.reverse()`. -/
def contextBefore (store : List Msg) (cid : String) (d : Nat) (n : Nat) : List Msg :=
  (((store.filter (fun m => m.chatId == cid && decide (m.date < d))).insertionSort descDate).take n).reverse

/-- The after-context SQL query:
`WHERE chat_id = ? AND date > ? ORDER BY date ASC LIMIT ?`. -/
def contextAfter (store : List Msg) (cid : String) (d : Nat) (n : Nat) : List Msg :=
  ((store.filter (fun m => m.chatId == cid && decide (d < m.date))).insertionSort ascDate).take n

/-- Context attachment performed for every selected result in `search`. -/
def attachContext (store : List Msg) (ctx : Nat) (r : SearchResult) :
    SearchResultWithContext :=
  { result := r
    before := contextBefore store r.message.chatId r.message.date ctx
    after := contextAfter store r.message.chatId r.message.date ctx }

/-- `search` from `src/searcher.ts`.  `db` is the handle `getDb()` returns:
`none` when `index.db` does not exist, in which case the thrown
`Index not found` error is raised before the query shape is inspected.  With a
database, a sender-only query goes to `searchBySender`, a usable text query to
`searchByText`, and otherwise the result is the empty list; every selected
result gets its context windows attached. -/
def searchModel (db : Option (List Msg)) (index : String → List SearchResult)
    (opts : SearchOptions) : Except String (List SearchResultWithContext) :=
  match db with
  | none => .error "Index not found. Run `slack-messages index` first."
  | some store =>
    match opts.fro, hasTextQuery opts.query, opts.query with
    | some f, false, _ =>
      .ok ((searchBySender store f opts.after opts.limit).map (attachContext store opts.context))
    | _, true, some q =>
      .ok ((searchByText index q opts.fro opts.after opts.limit).map (attachContext store opts.context))
    | _, _, _ => .ok []

/-! ### Contact aggregation: `getContacts` -/

/-! ### Derived notions used to state the cursor properties -/

/-- Code points of a string, the units JavaScript string comparison orders. -/
def codes (s : String) : List Nat :=
  s.data.map Char.toNat

/-- Non-strict counterpart of `strLt` (JavaScript `<=` on strings). -/
def strLe (a b : String) : Prop :=
  strLt b a = false

/-- Folding the cursor update value over a list of observed ids. -/
def cursorFoldVal (c : Option String) (ts : List String) : Option String :=
  ts.foldl (fun acc t => some (advVal acc t)) c

/-- Cursor-record evolution contributed by one conversation's history fetch. -/
def fetchFold (cid : String) (f : Fetch) (cs : List (String × String)) :
    List (String × String) :=
  f.foldl (fun cs2 mf => cursorAdvance cs2 cid mf.1.ts) cs

/-- Cursor-record evolution over the whole conversation list of a sync. -/
def cursorFold (convs : List (Conv × Fetch)) (cs : List (String × String)) :
    List (String × String) :=
  convs.foldl (fun cs2 cf => fetchFold cf.1.id cf.2 cs2) cs

/-- Pointwise "no cursor decreased" relation between two cursor records. -/
def cursorsMono (cs cs2 : List (String × String)) : Prop :=
  ∀ k v, cursorGet cs k = some v → ∃ v2, cursorGet cs2 k = some v2 ∧ strLe v v2

/-- Row predicate of the `getContacts` query:
`WHERE sender != '' AND is_from_me = 0`. -/
def eligibleContact (m : Msg) : Bool :=
  (m.sender != "") && (!m.isFromMe)

/-- `getContacts` from `src/searcher.ts`: group the eligible rows by sender,
aggregate `COUNT(*)` and `MAX(date)`, order by last activity descending, keep
`limit` rows. -/
def getContactsModel (store : List Msg) (limit : Nat) : List ContactInfo :=
  let eligible := store.filter eligibleContact
  let senders := (eligible.map (fun m => m.sender)).dedup
  let rows := senders.map (fun s =>
    { name := s
      lastMessageDate := ((eligible.filter (fun m => m.sender == s)).map (fun m => m.date)).foldl Nat.max 0
      messageCount := (eligible.filter (fun m => m.sender == s)).length })
  (rows.insertionSort contactDesc).take limit

/-! ### Concrete data used by the closed example theorems -/

/-- A stored record in conversation `A`. -/
def exm : Msg :=
  { ts := "100.000000", text := "hi", sender := "alice", chatName := "general",
    chatId := "A", date := 100, isFromMe := false, threadTs := none }

/-- Existing stats before an incremental sync of the one-message corpus `[exm]`. -/
def exExisting : IndexStats :=
  { totalMessages := 1, totalChats := 1, totalContacts := 1, indexedAt := 0,
    oldestMessage := 100, newestMessage := 100, workspaceId := "W", workspaceName := "WS",
    conversationCursors := [("A", "100.000000")] }

/-- Incremental fetch observing one new message in a brand-new conversation `B`. -/
def exConvsB : List (Conv × Fetch) :=
  [({ id := "B", name := "dms", isIm := false, userId := none },
    [({ ts := "200.000000", user := "u2", text := "yo", threadTs := none }, [])])]

/-- Incremental fetch for conversation `C`: one history message carrying one
thread reply whose `ts` is larger than every history `ts`. -/
def exConvsC : List (Conv × Fetch) :=
  [({ id := "C", name := "general", isIm := false, userId := none },
    [({ ts := "150.000000", user := "u2", text := "yo", threadTs := none },
      [{ ts := "500.000000", user := "u3", text := "re", threadTs := none }])])]

/-- The record the `exConvsB` fetch stores. -/
def exmB : Msg :=
  { ts := "200.000000", text := "yo", sender := "u2", chatName := "dms",
    chatId := "B", date := 200, isFromMe := false, threadTs := none }

/-- Stats produced by the incremental sync of `exConvsB` over `[exm]`. -/
def exStatsB : IndexStats :=
  { totalMessages := 2, totalChats := 1, totalContacts := 1, indexedAt := 999,
    oldestMessage := 100, newestMessage := 200, workspaceId := "W", workspaceName := "WS",
    conversationCursors := [("A", "100.000000"), ("B", "200.000000")] }

/-- Workspace identity used by the full-sync examples. -/
def exAuth : AuthInfo :=
  { userId := "U", teamId := "T", teamName := "TN" }

/-- The five-message conversation of the context example, timestamps 10…50. -/
def exStore5 : List Msg :=
  [ { exm with ts := "10.000000", date := 10, text := "a" },
    { exm with ts := "20.000000", date := 20, text := "b" },
    { exm with ts := "30.000000", date := 30, text := "c" },
    { exm with ts := "40.000000", date := 40, text := "d" },
    { exm with ts := "50.000000", date := 50, text := "e" } ]

/-- A fuzzy hit on the message at timestamp 30. -/
def exHit30 : SearchResult :=
  { message := { exm with ts := "30.000000", date := 30, text := "c" }, score := 2, matchedTerms := ["c"] }

/-- Options of the context example: text query, limit 10, context 2. -/
def exOpts30 : SearchOptions :=
  { query := some "c", fro := none, after := none, limit := 10, context := 2 }

/-- The result the context example produces. -/
def exRc30 : SearchResultWithContext :=
  { result := exHit30,
    before := [ { exm with ts := "10.000000", date := 10, text := "a" },
                { exm with ts := "20.000000", date := 20, text := "b" } ],
    after := [ { exm with ts := "40.000000", date := 40, text := "d" },
               { exm with ts := "50.000000", date := 50, text := "e" } ] }

/-! ## Helper lemmas about the string order -/

theorem charListLt_iff : ∀ as bs : List Char,
    charListLt as bs = true ↔ as.map Char.toNat < bs.map Char.toNat
  | [], [] => by
    simp [charListLt, lt_self_iff_false]
  | [], b :: bs => by
    simp only [charListLt, List.map_nil, List.map_cons, true_iff]
    exact List.nil_lt_cons _ _
  | a :: as, [] => by
    simp only [charListLt, List.map_nil, List.map_cons]
    exact iff_of_false Bool.false_ne_true (List.Lex.not_nil_right _ _)
  | a :: as, b :: bs => by
    show (if a.toNat < b.toNat then true else if b.toNat < a.toNat then false else charListLt as bs) = true
        ↔ (a.toNat :: as.map Char.toNat) < (b.toNat :: bs.map Char.toNat)
    by_cases h1 : a.toNat < b.toNat
    · rw [if_pos h1]
      exact iff_of_true rfl (List.Lex.rel h1)
    · rw [if_neg h1]
      by_cases h2 : b.toNat < a.toNat
      · rw [if_pos h2]
        exact iff_of_false Bool.false_ne_true
          (fun h => (List.Lex.isAsymm (α := ℕ) (· < ·)).asymm _ _ (List.Lex.rel h2) h)
      · rw [if_neg h2]
        have he : a.toNat = b.toNat :=
          Nat.le_antisymm (Nat.le_of_not_lt h2) (Nat.le_of_not_lt h1)
        rw [charListLt_iff as bs, he]
        exact (List.Lex.cons_iff (r := fun x y : ℕ => x < y)).symm

theorem strLt_iff (a b : String) : strLt a b = true ↔ codes a < codes b :=
  charListLt_iff a.data b.data

theorem strLe_iff (a b : String) : strLe a b ↔ codes a ≤ codes b := by
  unfold strLe
  rw [Bool.eq_false_iff]
  constructor
  · intro h
    exact le_of_not_lt (fun hlt => h ((strLt_iff b a).2 hlt))
  · intro h htrue
    exact absurd ((strLt_iff b a).1 htrue) (not_lt.2 h)

theorem strLe_refl (a : String) : strLe a a :=
  (strLe_iff a a).2 (le_refl _)

theorem strLe_trans {a b c : String} (h1 : strLe a b) (h2 : strLe b c) : strLe a c :=
  (strLe_iff a c).2 (le_trans ((strLe_iff a b).1 h1) ((strLe_iff b c).1 h2))

theorem strLe_of_strLt {a b : String} (h : strLt a b = true) : strLe a b :=
  (strLe_iff a b).2 (le_of_lt ((strLt_iff a b).1 h))

theorem strLe_empty (s : String) : strLe "" s :=
  (strLe_iff "" s).2 List.nil_le

theorem strLe_advVal (c t : String) : strLe c (advVal (some c) t) := by
  simp only [advVal]
  by_cases h : (c == "" || strLt c t) = true
  · rw [if_pos h]
    rcases (Bool.or_eq_true _ _).mp h with h1 | h2
    · have hc : c = "" := by simpa using h1
      rw [hc]
      exact strLe_empty t
    · exact strLe_of_strLt h2
  · rw [if_neg h]
    exact strLe_refl c

theorem strLe_advVal_right (c : Option String) (t : String) : strLe t (advVal c t) := by
  cases c with
  | none => exact strLe_refl t
  | some cur =>
    simp only [advVal]
    by_cases h : (cur == "" || strLt cur t) = true
    · rw [if_pos h]
      exact strLe_refl t
    · rw [if_neg h]
      have h2 : strLt cur t = false := by
        rcases Bool.or_eq_false_iff.mp (Bool.eq_false_iff.2 h) with ⟨_, hb⟩
        exact hb
      exact h2

/-! ## Helper lemmas about the cursor registry -/

theorem cursorGet_set_self (cs : List (String × String)) (k v : String) :
    cursorGet (cursorSet cs k v) k = some v := by
  induction cs with
  | nil => simp [cursorSet, cursorGet]
  | cons p ps ih =>
    by_cases h : p.1 = k
    · simp [cursorSet, cursorGet, h]
    · simp [cursorSet, cursorGet, h, ih]

theorem cursorGet_set_other (cs : List (String × String)) (k v k' : String) (h : k' ≠ k) :
    cursorGet (cursorSet cs k v) k' = cursorGet cs k' := by
  induction cs with
  | nil => simp [cursorSet, cursorGet, Ne.symm h]
  | cons p ps ih =>
    by_cases hp : p.1 = k
    · simp [cursorSet, cursorGet, hp, Ne.symm h, ih]
    · simp [cursorSet, cursorGet, hp, ih]

theorem cursorGet_advance_self (cs : List (String × String)) (k t : String) :
    cursorGet (cursorAdvance cs k t) k = some (advVal (cursorGet cs k) t) := by
  unfold cursorAdvance advVal
  cases hg : cursorGet cs k with
  | none => simp [cursorGet_set_self]
  | some cur =>
    by_cases h : (cur == "" || strLt cur t) = true
    · simp [h, cursorGet_set_self]
    · simp [h, hg]

theorem cursorGet_advance_other (cs : List (String × String)) (k t k' : String) (h : k' ≠ k) :
    cursorGet (cursorAdvance cs k t) k' = cursorGet cs k' := by
  unfold cursorAdvance
  cases cursorGet cs k with
  | none => exact cursorGet_set_other cs k t k' h
  | some cur =>
    by_cases hb : (cur == "" || strLt cur t) = true
    · simp [hb, cursorGet_set_other cs k t k' h]
    · simp [hb]

theorem fetchFold_get_self (cid : String) (f : Fetch) (cs : List (String × String)) :
    cursorGet (fetchFold cid f cs) cid
      = cursorFoldVal (cursorGet cs cid) (f.map (fun mf => mf.1.ts)) := by
  induction f generalizing cs with
  | nil => rfl
  | cons mf rest ih =>
    calc cursorGet (fetchFold cid rest (cursorAdvance cs cid mf.1.ts)) cid
        = cursorFoldVal (cursorGet (cursorAdvance cs cid mf.1.ts) cid)
            (rest.map (fun x => x.1.ts)) := ih _
      _ = cursorFoldVal (some (advVal (cursorGet cs cid) mf.1.ts))
            (rest.map (fun x => x.1.ts)) := by rw [cursorGet_advance_self]
      _ = cursorFoldVal (cursorGet cs cid) ((mf :: rest).map (fun x => x.1.ts)) := rfl

theorem fetchFold_get_other (cid : String) (f : Fetch) (cs : List (String × String))
    (k : String) (h : k ≠ cid) :
    cursorGet (fetchFold cid f cs) k = cursorGet cs k := by
  induction f generalizing cs with
  | nil => rfl
  | cons mf rest ih =>
    show cursorGet (fetchFold cid rest (cursorAdvance cs cid mf.1.ts)) k = _
    rw [ih, cursorGet_advance_other _ _ _ _ h]

theorem cursorFold_get_notMem (convs : List (Conv × Fetch)) (cs : List (String × String))
    (k : String) (h : ∀ cf ∈ convs, cf.1.id ≠ k) :
    cursorGet (cursorFold convs cs) k = cursorGet cs k := by
  induction convs generalizing cs with
  | nil => rfl
  | cons cf rest ih =>
    show cursorGet (cursorFold rest (fetchFold cf.1.id cf.2 cs)) k = _
    rw [ih _ (fun x hx => h x (List.mem_cons_of_mem _ hx)),
      fetchFold_get_other _ _ _ _ (fun he => (h cf (List.mem_cons_self _ _)) he.symm)]

theorem stepFold_snd (users : List SlackUser) (auth cid cname : String) (f : Fetch)
    (acc : List Msg × List (String × String)) :
    (f.foldl (stepMsg users auth cid cname) acc).2 = fetchFold cid f acc.2 := by
  induction f generalizing acc with
  | nil => rfl
  | cons mf rest ih =>
    show (rest.foldl (stepMsg users auth cid cname) (stepMsg users auth cid cname acc mf)).2 = _
    rw [ih]
    rfl

theorem collectNew_snd (users : List SlackUser) (auth : String) (convs : List (Conv × Fetch))
    (acc : List Msg × List (String × String)) :
    (convs.foldl (stepConv users auth) acc).2 = cursorFold convs acc.2 := by
  induction convs generalizing acc with
  | nil => rfl
  | cons cf rest ih =>
    show (rest.foldl (stepConv users auth) (stepConv users auth acc cf)).2 = _
    rw [ih]
    show cursorFold rest (stepConv users auth acc cf).2 = _
    rw [show (stepConv users auth acc cf).2 = fetchFold cf.1.id cf.2 acc.2 from
      stepFold_snd users auth cf.1.id (resolveConvName users cf.1) cf.2 acc]
    rfl

theorem collectNew_cursors (users : List SlackUser) (auth : String)
    (convs : List (Conv × Fetch)) (cs0 : List (String × String)) :
    (collectNew users auth convs cs0).2 = cursorFold convs cs0 :=
  collectNew_snd users auth convs ([], cs0)

theorem cursorsMono_refl (cs : List (String × String)) : cursorsMono cs cs :=
  fun _ v h => ⟨v, h, strLe_refl v⟩

theorem cursorsMono_trans {a b c : List (String × String)}
    (h1 : cursorsMono a b) (h2 : cursorsMono b c) : cursorsMono a c := by
  intro k v hv
  obtain ⟨v2, hv2, l12⟩ := h1 k v hv
  obtain ⟨v3, hv3, l23⟩ := h2 k v2 hv2
  exact ⟨v3, hv3, strLe_trans l12 l23⟩

theorem cursorsMono_advance (cs : List (String × String)) (k t : String) :
    cursorsMono cs (cursorAdvance cs k t) := by
  intro k' v hv
  by_cases h : k' = k
  · subst h
    refine ⟨advVal (cursorGet cs k') t, cursorGet_advance_self _ _ _, ?_⟩
    rw [hv]
    exact strLe_advVal v t
  · exact ⟨v, by rw [cursorGet_advance_other _ _ _ _ h]; exact hv, strLe_refl v⟩

theorem cursorsMono_fetchFold (cid : String) (f : Fetch) (cs : List (String × String)) :
    cursorsMono cs (fetchFold cid f cs) := by
  induction f generalizing cs with
  | nil => exact cursorsMono_refl cs
  | cons mf rest ih =>
    exact cursorsMono_trans (cursorsMono_advance cs cid mf.1.ts) (ih _)

theorem cursorsMono_cursorFold (convs : List (Conv × Fetch)) (cs : List (String × String)) :
    cursorsMono cs (cursorFold convs cs) := by
  induction convs generalizing cs with
  | nil => exact cursorsMono_refl cs
  | cons cf rest ih =>
    exact cursorsMono_trans (cursorsMono_fetchFold cf.1.id cf.2 cs) (ih _)

theorem cursorFold_get_of_mem : ∀ (convs : List (Conv × Fetch)) (cs : List (String × String))
    (conv : Conv) (f : Fetch),
    (convs.map (fun cf => cf.1.id)).Nodup → (conv, f) ∈ convs →
    cursorGet (cursorFold convs cs) conv.id
      = cursorFoldVal (cursorGet cs conv.id) (f.map (fun mf => mf.1.ts))
  | [], _, _, _, _, hmem => absurd hmem (List.not_mem_nil _)
  | (c0, f0) :: rest, cs, conv, f, hnd, hmem => by
    rcases List.mem_cons.mp hmem with he | ht
    · injection he with h1 h2
      subst h1
      subst h2
      have hni : ∀ x ∈ rest, x.1.id ≠ conv.id := by
        intro x hx hEq
        have hm : conv.id ∈ rest.map (fun y => y.1.id) := by
          have hmm : x.1.id ∈ rest.map (fun y => y.1.id) :=
            List.mem_map_of_mem (fun y => y.1.id) hx
          rw [hEq] at hmm
          exact hmm
        exact (List.nodup_cons.mp hnd).1 hm
      show cursorGet (cursorFold rest (fetchFold conv.id f cs)) conv.id = _
      rw [cursorFold_get_notMem rest _ conv.id hni]
      exact fetchFold_get_self conv.id f cs
    · have h2 : conv.id ∈ rest.map (fun y => y.1.id) :=
        List.mem_map_of_mem (fun y => y.1.id) ht
      have hne : conv.id ≠ c0.id := by
        intro hEq
        have h2b : c0.id ∈ rest.map (fun y => y.1.id) := by
          rw [hEq] at h2
          exact h2
        exact (List.nodup_cons.mp hnd).1 h2b
      show cursorGet (cursorFold rest (fetchFold c0.id f0 cs)) conv.id = _
      rw [cursorFold_get_of_mem rest _ conv f (List.nodup_cons.mp hnd).2 ht,
        fetchFold_get_other c0.id f0 cs conv.id hne]

/-! ## Helper lemmas about the structured store -/

theorem hasTs_append (s : List Msg) (m : Msg) (t : String) :
    hasTs (s ++ [m]) t = (hasTs s t || (m.ts == t)) := by
  simp [hasTs, List.any_append]

theorem hasTs_insertMsg_self (s : List Msg) (m : Msg) :
    hasTs (insertMsg s m) m.ts = true := by
  unfold insertMsg
  by_cases h : hasTs s m.ts
  · rw [if_pos h]
    exact h
  · rw [if_neg h, hasTs_append]
    simp

theorem hasTs_insertMsg_mono (s : List Msg) (m : Msg) (t : String) (h : hasTs s t = true) :
    hasTs (insertMsg s m) t = true := by
  unfold insertMsg
  by_cases hm : hasTs s m.ts
  · rw [if_pos hm]
    exact h
  · rw [if_neg hm, hasTs_append, h]
    simp

theorem hasTs_insertBatch_mono : ∀ (batch s : List Msg) (t : String),
    hasTs s t = true → hasTs (insertBatch s batch) t = true
  | [], _, _, h => h
  | m :: rest, s, t, h =>
    hasTs_insertBatch_mono rest (insertMsg s m) t (hasTs_insertMsg_mono s m t h)

theorem hasTs_insertBatch_mem : ∀ (batch s : List Msg) (m : Msg), m ∈ batch →
    hasTs (insertBatch s batch) m.ts = true
  | [], _, _, hm => absurd hm (List.not_mem_nil _)
  | a :: rest, s, m, hm => by
    rcases List.mem_cons.mp hm with he | ht
    · subst he
      exact hasTs_insertBatch_mono rest _ m.ts (hasTs_insertMsg_self s m)
    · exact hasTs_insertBatch_mem rest (insertMsg s a) m ht

theorem insertMsg_noop (s : List Msg) (m : Msg) (h : hasTs s m.ts = true) :
    insertMsg s m = s := by
  unfold insertMsg
  rw [if_pos h]

theorem insertBatch_noop : ∀ (batch s : List Msg), (∀ m ∈ batch, hasTs s m.ts = true) →
    insertBatch s batch = s
  | [], _, _ => rfl
  | a :: rest, s, h => by
    show insertBatch (insertMsg s a) rest = s
    rw [insertMsg_noop s a (h a (List.mem_cons_self _ _))]
    exact insertBatch_noop rest s (fun m hm => h m (List.mem_cons_of_mem _ hm))

theorem insertBatch_idem (s batch : List Msg) :
    insertBatch (insertBatch s batch) batch = insertBatch s batch :=
  insertBatch_noop batch _ (fun m hm => hasTs_insertBatch_mem batch s m hm)

theorem tsNodup_insertMsg (s : List Msg) (m : Msg) (h : tsNodup s) :
    tsNodup (insertMsg s m) := by
  unfold insertMsg
  by_cases hm : hasTs s m.ts
  · rw [if_pos hm]
    exact h
  · rw [if_neg hm]
    have hnm : m.ts ∉ s.map (fun x => x.ts) := by
      intro hmem
      rcases List.mem_map.mp hmem with ⟨x, hx, hxe⟩
      have hh : hasTs s m.ts = true := by
        unfold hasTs
        rw [List.any_eq_true]
        exact ⟨x, hx, by rw [beq_iff_eq]; exact hxe⟩
      exact hm hh
    unfold tsNodup at h ⊢
    rw [List.map_append]
    simp [List.nodup_append, h, hnm]

theorem tsNodup_insertBatch : ∀ (batch s : List Msg), tsNodup s → tsNodup (insertBatch s batch)
  | [], _, h => h
  | a :: rest, s, h => tsNodup_insertBatch rest (insertMsg s a) (tsNodup_insertMsg s a h)

theorem tsNodup_foldBatches : ∀ (batches : List (List Msg)) (s : List Msg), tsNodup s →
    tsNodup (batches.foldl insertBatch s)
  | [], _, h => h
  | b :: rest, s, h => tsNodup_foldBatches rest (insertBatch s b) (tsNodup_insertBatch b s h)

/-! ## Helper lemmas about the context windows -/

theorem contextBefore_length (store : List Msg) (cid : String) (d n : Nat) :
    (contextBefore store cid d n).length
      = min n (store.filter (fun m => m.chatId == cid && decide (m.date < d))).length := by
  unfold contextBefore
  rw [List.length_reverse, List.length_take, List.length_insertionSort]

theorem contextBefore_sorted (store : List Msg) (cid : String) (d n : Nat) :
    (contextBefore store cid d n).Pairwise (fun a b => a.date ≤ b.date) := by
  unfold contextBefore
  rw [List.pairwise_reverse]
  exact (List.sorted_insertionSort descDate _).sublist (List.take_sublist _ _)

theorem contextAfter_length (store : List Msg) (cid : String) (d n : Nat) :
    (contextAfter store cid d n).length
      = min n (store.filter (fun m => m.chatId == cid && decide (d < m.date))).length := by
  unfold contextAfter
  rw [List.length_take, List.length_insertionSort]

theorem contextAfter_sorted (store : List Msg) (cid : String) (d n : Nat) :
    (contextAfter store cid d n).Pairwise (fun a b => a.date ≤ b.date) :=
  (List.sorted_insertionSort ascDate _).sublist (List.take_sublist _ _)

theorem contextBefore_mem (store : List Msg) (cid : String) (d n : Nat) (m : Msg)
    (hm : m ∈ contextBefore store cid d n) :
    m ∈ store ∧ m.chatId = cid ∧ m.date < d := by
  unfold contextBefore at hm
  rw [List.mem_reverse] at hm
  have h1 : m ∈ (store.filter (fun m => m.chatId == cid && decide (m.date < d))).insertionSort descDate :=
    (List.take_sublist _ _).subset hm
  have h2 : m ∈ store.filter (fun m => m.chatId == cid && decide (m.date < d)) :=
    (List.perm_insertionSort descDate _).subset h1
  rcases List.mem_filter.mp h2 with ⟨hs, hp⟩
  rcases (Bool.and_eq_true _ _).mp hp with ⟨hc, hd⟩
  exact ⟨hs, beq_iff_eq.mp hc, of_decide_eq_true hd⟩

theorem contextAfter_mem (store : List Msg) (cid : String) (d n : Nat) (m : Msg)
    (hm : m ∈ contextAfter store cid d n) :
    m ∈ store ∧ m.chatId = cid ∧ d < m.date := by
  unfold contextAfter at hm
  have h1 : m ∈ (store.filter (fun m => m.chatId == cid && decide (d < m.date))).insertionSort ascDate :=
    (List.take_sublist _ _).subset hm
  have h2 : m ∈ store.filter (fun m => m.chatId == cid && decide (d < m.date)) :=
    (List.perm_insertionSort ascDate _).subset h1
  rcases List.mem_filter.mp h2 with ⟨hs, hp⟩
  rcases (Bool.and_eq_true _ _).mp hp with ⟨hc, hd⟩
  exact ⟨hs, beq_iff_eq.mp hc, of_decide_eq_true hd⟩

theorem contextBefore_bound (store : List Msg) (cid : String) (d n : Nat) (m b : Msg)
    (hms : m ∈ store) (hmc : m.chatId = cid) (hmd : m.date < d)
    (hnotin : m ∉ contextBefore store cid d n) (hb : b ∈ contextBefore store cid d n) :
    m.date ≤ b.date := by
  unfold contextBefore at hnotin hb
  rw [List.mem_reverse] at hb
  have hmf : m ∈ store.filter (fun m => m.chatId == cid && decide (m.date < d)) :=
    List.mem_filter.mpr ⟨hms, by
      rw [Bool.and_eq_true]
      exact ⟨beq_iff_eq.mpr hmc, decide_eq_true hmd⟩⟩
  have hmsort : m ∈ (store.filter (fun m => m.chatId == cid && decide (m.date < d))).insertionSort descDate :=
    (List.perm_insertionSort descDate _).symm.subset hmf
  have hmnot : m ∉ ((store.filter (fun m => m.chatId == cid && decide (m.date < d))).insertionSort descDate).take n :=
    fun hc => hnotin (List.mem_reverse.mpr hc)
  have hmdrop : m ∈ ((store.filter (fun m => m.chatId == cid && decide (m.date < d))).insertionSort descDate).drop n := by
    rw [← List.take_append_drop n
      ((store.filter (fun m => m.chatId == cid && decide (m.date < d))).insertionSort descDate)] at hmsort
    rcases List.mem_append.mp hmsort with h | h
    · exact absurd h hmnot
    · exact h
  exact (List.sorted_insertionSort descDate _).rel_of_mem_take_of_mem_drop hb hmdrop

theorem contextAfter_bound (store : List Msg) (cid : String) (d n : Nat) (m b : Msg)
    (hms : m ∈ store) (hmc : m.chatId = cid) (hmd : d < m.date)
    (hnotin : m ∉ contextAfter store cid d n) (hb : b ∈ contextAfter store cid d n) :
    b.date ≤ m.date := by
  unfold contextAfter at hnotin hb
  have hmf : m ∈ store.filter (fun m => m.chatId == cid && decide (d < m.date)) :=
    List.mem_filter.mpr ⟨hms, by
      rw [Bool.and_eq_true]
      exact ⟨beq_iff_eq.mpr hmc, decide_eq_true hmd⟩⟩
  have hmsort : m ∈ (store.filter (fun m => m.chatId == cid && decide (d < m.date))).insertionSort ascDate :=
    (List.perm_insertionSort ascDate _).symm.subset hmf
  have hmdrop : m ∈ ((store.filter (fun m => m.chatId == cid && decide (d < m.date))).insertionSort ascDate).drop n := by
    rw [← List.take_append_drop n
      ((store.filter (fun m => m.chatId == cid && decide (d < m.date))).insertionSort ascDate)] at hmsort
    rcases List.mem_append.mp hmsort with h | h
    · exact absurd h hnotin
    · exact h
  exact (List.sorted_insertionSort ascDate _).rel_of_mem_take_of_mem_drop hb hmdrop

/-! ## Helper lemmas about the search dispatcher -/

theorem searchModel_sender (store : List Msg) (index : String → List SearchResult)
    (opts : SearchOptions) (f : String)
    (hf : opts.fro = some f) (hq : hasTextQuery opts.query = false) :
    searchModel (some store) index opts
      = .ok ((searchBySender store f opts.after opts.limit).map (attachContext store opts.context)) := by
  unfold searchModel
  rw [hf, hq]

theorem searchModel_text (store : List Msg) (index : String → List SearchResult)
    (opts : SearchOptions) (q : String)
    (hq : opts.query = some q) (ht : hasTextQuery opts.query = true) :
    searchModel (some store) index opts
      = .ok ((searchByText index q opts.fro opts.after opts.limit).map (attachContext store opts.context)) := by
  unfold searchModel
  rw [ht, hq]
  cases opts.fro <;> rfl

theorem searchModel_emptyResult (store : List Msg) (index : String → List SearchResult)
    (opts : SearchOptions)
    (hf : opts.fro = none) (hq : hasTextQuery opts.query = false) :
    searchModel (some store) index opts = .ok [] := by
  unfold searchModel
  rw [hf, hq]

theorem searchModel_ok_shape (store : List Msg) (index : String → List SearchResult)
    (opts : SearchOptions) (rcs : List SearchResultWithContext)
    (h : searchModel (some store) index opts = .ok rcs) :
    ∀ rc ∈ rcs, ∃ r, rc = attachContext store opts.context r := by
  intro rc hrc
  cases hfro : opts.fro with
  | some f =>
    cases hq : hasTextQuery opts.query with
    | false =>
      rw [searchModel_sender store index opts f hfro hq] at h
      have hmap := Except.ok.inj h
      rw [← hmap] at hrc
      rcases List.mem_map.mp hrc with ⟨r, _, hre⟩
      exact ⟨r, hre.symm⟩
    | true =>
      cases hquery : opts.query with
      | none =>
        rw [hquery] at hq
        exact absurd hq (by simp [hasTextQuery])
      | some q =>
        rw [searchModel_text store index opts q hquery hq] at h
        have hmap := Except.ok.inj h
        rw [← hmap] at hrc
        rcases List.mem_map.mp hrc with ⟨r, _, hre⟩
        exact ⟨r, hre.symm⟩
  | none =>
    cases hq : hasTextQuery opts.query with
    | false =>
      rw [searchModel_emptyResult store index opts hfro hq] at h
      have hmap := Except.ok.inj h
      rw [← hmap] at hrc
      cases hrc
    | true =>
      cases hquery : opts.query with
      | none =>
        rw [hquery] at hq
        exact absurd hq (by simp [hasTextQuery])
      | some q =>
        rw [searchModel_text store index opts q hquery hq] at h
        have hmap := Except.ok.inj h
        rw [← hmap] at hrc
        rcases List.mem_map.mp hrc with ⟨r, _, hre⟩
        exact ⟨r, hre.symm⟩

theorem cursorFoldVal_ge_init : ∀ (ts : List String) (v : String),
    ∃ v2, cursorFoldVal (some v) ts = some v2 ∧ strLe v v2
  | [], v => ⟨v, rfl, strLe_refl v⟩
  | t :: rest, v => by
    obtain ⟨v2, hv2, hle⟩ := cursorFoldVal_ge_init rest (advVal (some v) t)
    exact ⟨v2, hv2, strLe_trans (strLe_advVal v t) hle⟩

theorem cursorFoldVal_ge_mem : ∀ (ts : List String) (c : Option String) (t : String), t ∈ ts →
    ∃ v, cursorFoldVal c ts = some v ∧ strLe t v
  | [], _, _, hm => absurd hm (List.not_mem_nil _)
  | t0 :: rest, c, t, hm => by
    rcases List.mem_cons.mp hm with he | ht
    · subst he
      obtain ⟨v2, hv2, hle⟩ := cursorFoldVal_ge_init rest (advVal c t)
      exact ⟨v2, hv2, strLe_trans (strLe_advVal_right c t) hle⟩
    · exact cursorFoldVal_ge_mem rest (some (advVal c t0)) t ht

/-! ## Claim theorems -/

/-- Claim C2 (amended): across an incremental sync, every conversation's stored
cursor is monotonically non-decreasing (in the string order the code compares
`ts` values with); when conversation ids are pairwise distinct, the cursor of a
fetched conversation after the sync equals the fold of the cursor-update
maximum over its previous value and the `ts` of each of its top-level history
messages — thread replies are observed and stored but do not advance the
cursor — and that cursor is in particular an upper bound of every history `ts`
observed for the conversation. -/
theorem cursorMonotoneMax (users : List SlackUser) (auth : String)
    (convs : List (Conv × Fetch)) (cs0 : List (String × String))
    (conv : Conv) (f : Fetch)
    (hnd : (convs.map (fun cf => cf.1.id)).Nodup) (hmem : (conv, f) ∈ convs) :
    cursorsMono cs0 (collectNew users auth convs cs0).2 ∧
    cursorGet (collectNew users auth convs cs0).2 conv.id
      = cursorFoldVal (cursorGet cs0 conv.id) (f.map (fun mf => mf.1.ts)) ∧
    ∀ t ∈ f.map (fun mf => mf.1.ts),
      ∃ v, cursorGet (collectNew users auth convs cs0).2 conv.id = some v ∧ strLe t v := by
  rw [collectNew_cursors]
  refine ⟨cursorsMono_cursorFold convs cs0,
    cursorFold_get_of_mem convs cs0 conv f hnd hmem, ?_⟩
  intro t hmm
  rw [cursorFold_get_of_mem convs cs0 conv f hnd hmem]
  exact cursorFoldVal_ge_mem _ _ t hmm

/-- Witness for `cursorMonotoneMax` at the conversation-`C` example fetch. -/
theorem cursorMonotoneMaxWitness :
    ((exConvsC.map (fun cf => cf.1.id)).Nodup ∧
      (({ id := "C", name := "general", isIm := false, userId := none } : Conv),
        ([({ ts := "150.000000", user := "u2", text := "yo", threadTs := none },
          [{ ts := "500.000000", user := "u3", text := "re", threadTs := none }])] : Fetch)) ∈ exConvsC) ∧
    (cursorsMono [("A", "100.000000")] (collectNew [] "UME" exConvsC [("A", "100.000000")]).2 ∧
      cursorGet (collectNew [] "UME" exConvsC [("A", "100.000000")]).2 "C"
        = cursorFoldVal (cursorGet [("A", "100.000000")] "C")
            (([({ ts := "150.000000", user := "u2", text := "yo", threadTs := none },
              [{ ts := "500.000000", user := "u3", text := "re", threadTs := none }])] : Fetch).map
              (fun mf => mf.1.ts)) ∧
      ∀ t ∈ (([({ ts := "150.000000", user := "u2", text := "yo", threadTs := none },
            [{ ts := "500.000000", user := "u3", text := "re", threadTs := none }])] : Fetch).map
            (fun mf => mf.1.ts)),
        ∃ v, cursorGet (collectNew [] "UME" exConvsC [("A", "100.000000")]).2 "C" = some v ∧ strLe t v) :=
  ⟨⟨by decide, by decide⟩,
    cursorMonotoneMax [] "UME" exConvsC [("A", "100.000000")]
      { id := "C", name := "general", isIm := false, userId := none }
      [({ ts := "150.000000", user := "u2", text := "yo", threadTs := none },
        [{ ts := "500.000000", user := "u3", text := "re", threadTs := none }])]
      (by decide) (by decide)⟩

/-- Claim C2 counterexample: in the incremental sync of `exConvsC`, a thread
reply with externalId `500.000000` is observed for conversation `C` (it is
among the collected new messages of `C`) and is strictly larger than the
history message's id, yet the cursor after the sync is `150.000000` — the
cursor is not the maximum over every externalId observed during the sync. -/
theorem cursorMissesThreadReplyIds :
    cursorGet (collectNew [] "UME" exConvsC [("C", "100.000000")]).2 "C" = some "150.000000" ∧
    ((collectNew [] "UME" exConvsC [("C", "100.000000")]).1.map
      (fun m => (m.chatId, m.ts))).contains ("C", "500.000000") = true ∧
    strLt "150.000000" "500.000000" = true := by
  decide

/-- Claim C4: insertion into the structured store is idempotent by externalId:
a duplicate-`ts` insert is a silent no-op (first write wins); any sequence of
batch insertions starting from the empty store keeps at most one record per
`ts`; and re-inserting an already inserted batch changes nothing, in particular
not the record count. -/
theorem insertIdempotentByTs (s : List Msg) (m : Msg) (batches : List (List Msg))
    (batch : List Msg) (h : hasTs s m.ts = true) :
    insertMsg s m = s ∧
    tsNodup (batches.foldl insertBatch []) ∧
    insertBatch (insertBatch s batch) batch = insertBatch s batch ∧
    (insertBatch (insertBatch s batch) batch).length = (insertBatch s batch).length := by
  refine ⟨insertMsg_noop s m h, tsNodup_foldBatches batches [] (by simp [tsNodup]),
    insertBatch_idem s batch, ?_⟩
  rw [insertBatch_idem]

/-- Witness for `insertIdempotentByTs` at the one-record store. -/
theorem insertIdempotentByTsWitness :
    hasTs [exm] exm.ts = true ∧
    (insertMsg [exm] exm = [exm] ∧
      tsNodup ([[exm], [exm]].foldl insertBatch []) ∧
      insertBatch (insertBatch [exm] [exm]) [exm] = insertBatch [exm] [exm] ∧
      (insertBatch (insertBatch [exm] [exm]) [exm]).length = (insertBatch [exm] [exm]).length) :=
  ⟨by decide, insertIdempotentByTs [exm] exm [[exm], [exm]] [exm] (by decide)⟩

/-- Claim C10: without a built index, `search` raises the index-not-found error
before the query shape is inspected — for every option set, including the
empty-query/no-`from` shape that returns an empty list once an index exists. -/
theorem searchRequiresIndex (index : String → List SearchResult) (opts : SearchOptions) :
    searchModel none index opts = .error "Index not found. Run `slack-messages index` first." ∧
    (opts.query = none → opts.fro = none →
      ∀ store, searchModel (some store) index opts = .ok []) := by
  refine ⟨rfl, fun hq hf store => searchModel_emptyResult store index opts hf ?_⟩
  rw [hq]
  rfl

/-- Witness for `searchRequiresIndex` at a concrete option set. -/
theorem searchRequiresIndexWitness :
    (searchModel none (fun _ => [])
        { query := none, fro := none, after := none, limit := 10, context := 2 }
      = .error "Index not found. Run `slack-messages index` first.") ∧
    (({ query := none, fro := none, after := none, limit := 10, context := 2 } : SearchOptions).query = none →
      ({ query := none, fro := none, after := none, limit := 10, context := 2 } : SearchOptions).fro = none →
      ∀ store, searchModel (some store) (fun _ => [])
        { query := none, fro := none, after := none, limit := 10, context := 2 } = .ok []) :=
  searchRequiresIndex (fun _ => [])
    { query := none, fro := none, after := none, limit := 10, context := 2 }

/-- Claim C5: with an index present, a search whose text query is absent,
empty, whitespace-only or the literal `*`, and whose `from` filter is absent,
returns the empty result list rather than an error. -/
theorem emptyQueryYieldsEmpty (store : List Msg) (index : String → List SearchResult)
    (opts : SearchOptions)
    (hq : opts.query = none ∨ opts.query = some "" ∨
      (∃ q, opts.query = some q ∧ q.data.all (fun c => c.isWhitespace) = true) ∨
      opts.query = some "*")
    (hf : opts.fro = none) :
    searchModel (some store) index opts = .ok [] := by
  apply searchModel_emptyResult store index opts hf
  rcases hq with h | h | ⟨q, hqe, hws⟩ | h
  · rw [h]
    rfl
  · rw [h]
    decide
  · rw [hqe]
    simp only [hasTextQuery, Bool.and_eq_false_iff]
    right
    rw [List.any_eq_false]
    intro c hc
    simp [List.all_eq_true.mp hws c hc]
  · rw [h]
    decide

/-- Witness for `emptyQueryYieldsEmpty` at a whitespace-only query. -/
theorem emptyQueryYieldsEmptyWitness :
    ((({ query := some "  ", fro := none, after := none, limit := 10, context := 2 } : SearchOptions).query = none ∨
      ({ query := some "  ", fro := none, after := none, limit := 10, context := 2 } : SearchOptions).query = some "" ∨
      (∃ q, ({ query := some "  ", fro := none, after := none, limit := 10, context := 2 } : SearchOptions).query = some q ∧
        q.data.all (fun c => c.isWhitespace) = true) ∨
      ({ query := some "  ", fro := none, after := none, limit := 10, context := 2 } : SearchOptions).query = some "*") ∧
      ({ query := some "  ", fro := none, after := none, limit := 10, context := 2 } : SearchOptions).fro = none) ∧
    searchModel (some [exm]) (fun _ => [])
      { query := some "  ", fro := none, after := none, limit := 10, context := 2 } = .ok [] :=
  ⟨⟨Or.inr (Or.inr (Or.inl ⟨"  ", rfl, by decide⟩)), rfl⟩,
    emptyQueryYieldsEmpty [exm] (fun _ => [])
      { query := some "  ", fro := none, after := none, limit := 10, context := 2 }
      (Or.inr (Or.inr (Or.inl ⟨"  ", rfl, by decide⟩))) rfl⟩

/-- Claim C6: an incremental sync that collects zero new messages returns
successfully and keeps `totalMessages`, `totalChats`, `totalContacts`,
`oldestMessage`, `newestMessage`, `workspaceId` and `workspaceName` unchanged
while advancing `indexedAt` to the sync time; the store is untouched. -/
theorem incrementalNoOpRefreshesIndexedAt (existing : IndexStats) (store : List Msg)
    (users : List SlackUser) (auth : String) (convs : List (Conv × Fetch)) (now : Nat)
    (hc : existing.conversationCursors.isEmpty = false)
    (hz : (collectNew users auth convs existing.conversationCursors).1 = []) :
    ∃ stats2, updateIndexModel existing store users auth convs now = some (stats2, store) ∧
      stats2.totalMessages = existing.totalMessages ∧
      stats2.totalChats = existing.totalChats ∧
      stats2.totalContacts = existing.totalContacts ∧
      stats2.oldestMessage = existing.oldestMessage ∧
      stats2.newestMessage = existing.newestMessage ∧
      stats2.workspaceId = existing.workspaceId ∧
      stats2.workspaceName = existing.workspaceName ∧
      stats2.indexedAt = now := by
  have main : updateIndexModel existing store users auth convs now
      = some ({ existing with
          indexedAt := now
          conversationCursors := (collectNew users auth convs existing.conversationCursors).2 }, store) := by
    simp [updateIndexModel, hc, hz]
  exact ⟨_, main, rfl, rfl, rfl, rfl, rfl, rfl, rfl, rfl⟩

/-- Witness for `incrementalNoOpRefreshesIndexedAt` at an empty fetch. -/
theorem incrementalNoOpRefreshesIndexedAtWitness :
    (exExisting.conversationCursors.isEmpty = false ∧
      (collectNew [] "UME" [] exExisting.conversationCursors).1 = []) ∧
    (∃ stats2, updateIndexModel exExisting [exm] [] "UME" [] 7 = some (stats2, [exm]) ∧
      stats2.totalMessages = exExisting.totalMessages ∧
      stats2.totalChats = exExisting.totalChats ∧
      stats2.totalContacts = exExisting.totalContacts ∧
      stats2.oldestMessage = exExisting.oldestMessage ∧
      stats2.newestMessage = exExisting.newestMessage ∧
      stats2.workspaceId = exExisting.workspaceId ∧
      stats2.workspaceName = exExisting.workspaceName ∧
      stats2.indexedAt = 7) :=
  ⟨⟨by decide, by decide⟩,
    incrementalNoOpRefreshesIndexedAt exExisting [exm] [] "UME" [] 7 (by decide) (by decide)⟩

/-- Claim C1 (amended): a full sync recomputes the persisted stats from the
stored corpus — `totalMessages` is the stored record count and `totalChats` /
`totalContacts` the numbers of distinct conversation ids and sender names among
the stored records; an incremental sync instead carries `totalChats` and
`totalContacts` forward unchanged and adds to `totalMessages` the number of
stored rows whose `ts` was observed during the sync. -/
theorem statsRecomputationPolicy (users : List SlackUser) (auth : AuthInfo)
    (convs : List (Conv × Fetch)) (now : Nat)
    (existing : IndexStats) (store : List Msg) (users2 : List SlackUser)
    (auth2 : String) (convs2 : List (Conv × Fetch)) (now2 : Nat)
    (stats2 : IndexStats) (store2 : List Msg)
    (hupd : updateIndexModel existing store users2 auth2 convs2 now2 = some (stats2, store2)) :
    ((buildIndexModel users auth convs now).1.totalMessages
        = (buildIndexModel users auth convs now).2.length ∧
      (buildIndexModel users auth convs now).1.totalChats
        = ((buildIndexModel users auth convs now).2.map (fun m => m.chatId)).dedup.length ∧
      (buildIndexModel users auth convs now).1.totalContacts
        = ((buildIndexModel users auth convs now).2.map (fun m => m.sender)).dedup.length) ∧
    stats2.totalChats = existing.totalChats ∧
    stats2.totalContacts = existing.totalContacts ∧
    stats2.totalMessages = existing.totalMessages
      + (store2.filter (fun m =>
          ((collectNew users2 auth2 convs2 existing.conversationCursors).1.map
            (fun x => x.ts)).contains m.ts)).length := by
  constructor
  · refine ⟨?_, ?_, ?_⟩
    · exact List.length_insertionSort _ _
    · exact (((List.perm_insertionSort ascDate _).map (fun m => m.chatId)).dedup).length_eq
    · exact (((List.perm_insertionSort ascDate _).map (fun m => m.sender)).dedup).length_eq
  · by_cases hempty : existing.conversationCursors.isEmpty
    · simp only [updateIndexModel, hempty, if_true] at hupd
      exact Option.noConfusion hupd
    · have hemptyf : existing.conversationCursors.isEmpty = false := Bool.eq_false_iff.mpr hempty
      by_cases hz : (collectNew users2 auth2 convs2 existing.conversationCursors).1.isEmpty
      · have hznil : (collectNew users2 auth2 convs2 existing.conversationCursors).1 = [] :=
          List.isEmpty_iff.mp hz
        simp only [updateIndexModel, hemptyf, hz, Bool.false_eq_true, if_false, if_true,
          Option.some.injEq, Prod.mk.injEq] at hupd
        obtain ⟨h1, h2⟩ := hupd
        rw [← h1, ← h2]
        refine ⟨rfl, rfl, ?_⟩
        simp [hznil]
      · have hzf : (collectNew users2 auth2 convs2 existing.conversationCursors).1.isEmpty = false :=
          Bool.eq_false_iff.mpr hz
        simp only [updateIndexModel, hemptyf, hzf, Bool.false_eq_true, if_false,
          Option.some.injEq, Prod.mk.injEq] at hupd
        obtain ⟨h1, h2⟩ := hupd
        rw [← h1, ← h2]
        exact ⟨rfl, rfl, rfl⟩

/-- Witness for `statsRecomputationPolicy`: an empty full sync together with
the incremental sync of `exConvsB` over the one-message corpus. -/
theorem statsRecomputationPolicyWitness :
    updateIndexModel exExisting [exm] [] "UME" exConvsB 999 = some (exStatsB, [exm, exmB]) ∧
    (((buildIndexModel [] exAuth [] 0).1.totalMessages
        = (buildIndexModel [] exAuth [] 0).2.length ∧
      (buildIndexModel [] exAuth [] 0).1.totalChats
        = ((buildIndexModel [] exAuth [] 0).2.map (fun m => m.chatId)).dedup.length ∧
      (buildIndexModel [] exAuth [] 0).1.totalContacts
        = ((buildIndexModel [] exAuth [] 0).2.map (fun m => m.sender)).dedup.length) ∧
    exStatsB.totalChats = exExisting.totalChats ∧
    exStatsB.totalContacts = exExisting.totalContacts ∧
    exStatsB.totalMessages = exExisting.totalMessages
      + (([exm, exmB] : List Msg).filter (fun m =>
          ((collectNew [] "UME" exConvsB exExisting.conversationCursors).1.map
            (fun x => x.ts)).contains m.ts)).length) :=
  ⟨by decide,
    statsRecomputationPolicy [] exAuth [] 0 exExisting [exm] [] "UME" exConvsB 999
      exStatsB [exm, exmB] (by decide)⟩

/-- Claim C1 counterexample: the incremental sync of `exConvsB` over the
one-message corpus succeeds, stores a message of a second conversation
(2 distinct chat ids in the stored corpus) yet persists `totalChats = 1` — the
incremental path does not recompute the stats from the stored corpus. -/
theorem incrementalStatsNotRecomputed :
    (updateIndexModel exExisting [exm] [] "UME" exConvsB 999).map
      (fun p => (p.1.totalChats, (p.2.map (fun m => m.chatId)).dedup.length)) = some (1, 2) ∧
    (1 : Nat) ≠ 2 := by
  decide

/-- Claim C3: every result attached to a successful search carries as
before-context the `context` most recent stored messages of its conversation
strictly older than the hit (ascending), and as after-context the `context`
earliest ones strictly newer (ascending); near a conversation boundary the
windows are shorter (their length is the minimum of `context` and the number of
qualifying neighbours) and no error occurs. -/
theorem searchContextWindows (store : List Msg) (index : String → List SearchResult)
    (opts : SearchOptions) (rcs : List SearchResultWithContext)
    (hok : searchModel (some store) index opts = .ok rcs)
    (rc : SearchResultWithContext) (hmem : rc ∈ rcs) :
    (rc.before.length = min opts.context
        (store.filter (fun m => m.chatId == rc.result.message.chatId
          && decide (m.date < rc.result.message.date))).length) ∧
    rc.before.Pairwise (fun a b => a.date ≤ b.date) ∧
    (∀ m ∈ rc.before, m ∈ store ∧ m.chatId = rc.result.message.chatId
      ∧ m.date < rc.result.message.date) ∧
    (∀ m ∈ store, m.chatId = rc.result.message.chatId → m.date < rc.result.message.date →
      m ∉ rc.before → ∀ b ∈ rc.before, m.date ≤ b.date) ∧
    (rc.after.length = min opts.context
        (store.filter (fun m => m.chatId == rc.result.message.chatId
          && decide (rc.result.message.date < m.date))).length) ∧
    rc.after.Pairwise (fun a b => a.date ≤ b.date) ∧
    (∀ m ∈ rc.after, m ∈ store ∧ m.chatId = rc.result.message.chatId
      ∧ rc.result.message.date < m.date) ∧
    (∀ m ∈ store, m.chatId = rc.result.message.chatId → rc.result.message.date < m.date →
      m ∉ rc.after → ∀ b ∈ rc.after, b.date ≤ m.date) := by
  obtain ⟨r, hr⟩ := searchModel_ok_shape store index opts rcs hok rc hmem
  subst hr
  exact ⟨contextBefore_length store _ _ _, contextBefore_sorted store _ _ _,
    fun m hm => contextBefore_mem store _ _ _ m hm,
    fun m hms hmc hmd hn b hb => contextBefore_bound store _ _ _ m b hms hmc hmd hn hb,
    contextAfter_length store _ _ _, contextAfter_sorted store _ _ _,
    fun m hm => contextAfter_mem store _ _ _ m hm,
    fun m hms hmc hmd hn b hb => contextAfter_bound store _ _ _ m b hms hmc hmd hn hb⟩

/-- Witness for `searchContextWindows` at the `[10,20,30,40,50]` conversation
with a hit at timestamp 30 and `context = 2`. -/
theorem searchContextWindowsWitness :
    (searchModel (some exStore5) (fun _ => [exHit30]) exOpts30 = .ok [exRc30] ∧ exRc30 ∈ [exRc30]) ∧
    ((exRc30.before.length = min exOpts30.context
        (exStore5.filter (fun m => m.chatId == exRc30.result.message.chatId
          && decide (m.date < exRc30.result.message.date))).length) ∧
      exRc30.before.Pairwise (fun a b => a.date ≤ b.date) ∧
      (∀ m ∈ exRc30.before, m ∈ exStore5 ∧ m.chatId = exRc30.result.message.chatId
        ∧ m.date < exRc30.result.message.date) ∧
      (∀ m ∈ exStore5, m.chatId = exRc30.result.message.chatId →
        m.date < exRc30.result.message.date →
        m ∉ exRc30.before → ∀ b ∈ exRc30.before, m.date ≤ b.date) ∧
      (exRc30.after.length = min exOpts30.context
          (exStore5.filter (fun m => m.chatId == exRc30.result.message.chatId
            && decide (exRc30.result.message.date < m.date))).length) ∧
      exRc30.after.Pairwise (fun a b => a.date ≤ b.date) ∧
      (∀ m ∈ exRc30.after, m ∈ exStore5 ∧ m.chatId = exRc30.result.message.chatId
        ∧ exRc30.result.message.date < m.date) ∧
      (∀ m ∈ exStore5, m.chatId = exRc30.result.message.chatId →
        exRc30.result.message.date < m.date →
        m ∉ exRc30.after → ∀ b ∈ exRc30.after, b.date ≤ m.date)) :=
  ⟨⟨rfl, by decide⟩,
    searchContextWindows exStore5 (fun _ => [exHit30]) exOpts30 [exRc30] rfl exRc30 (by decide)⟩

/-- Claim C7: a sender-only search (usable `from`, no usable text query)
returns at most `limit` results, ordered by timestamp descending, each with
flat score `1.0`, never self-authored, with the sender containing the pattern
case-insensitively, and at or above the date floor when one is given. -/
theorem senderOnlyQuerySpec (store : List Msg) (index : String → List SearchResult)
    (opts : SearchOptions) (f : String) (rcs : List SearchResultWithContext)
    (hf : opts.fro = some f) (hq : hasTextQuery opts.query = false)
    (hok : searchModel (some store) index opts = .ok rcs) :
    rcs.length ≤ opts.limit ∧
    rcs.Pairwise (fun a b => b.result.message.date ≤ a.result.message.date) ∧
    ∀ rc ∈ rcs,
      rc.result.score = 1 ∧
      rc.result.message.isFromMe = false ∧
      needleIn (lowerData f) (lowerData rc.result.message.sender) = true ∧
      ∀ a, opts.after = some a → a ≤ rc.result.message.date := by
  rw [searchModel_sender store index opts f hf hq] at hok
  have hrcs := Except.ok.inj hok
  subst hrcs
  have hrows : (((store.filter (bySenderPred f (opts.after.getD 0))).insertionSort descDate).take
      opts.limit).Pairwise descDate :=
    (List.sorted_insertionSort descDate _).sublist (List.take_sublist _ _)
  refine ⟨?_, ?_, ?_⟩
  · have h1 : (searchBySender store f opts.after opts.limit).length
        = (((store.filter (bySenderPred f (opts.after.getD 0))).insertionSort descDate).take
            opts.limit).length := by
      simp [searchBySender]
    rw [List.length_map, h1]
    exact List.length_take_le _ _
  · exact (hrows.map (fun m => ({ message := m, score := 1, matchedTerms := [] } : SearchResult))
      (fun a b h => h)).map (attachContext store opts.context) (fun a b h => h)
  · intro rc hrc
    rcases List.mem_map.mp hrc with ⟨r, hr, hre⟩
    rcases List.mem_map.mp hr with ⟨m, hmrows, hme⟩
    have hmf : m ∈ store.filter (bySenderPred f (opts.after.getD 0)) :=
      (List.perm_insertionSort descDate _).subset ((List.take_sublist _ _).subset hmrows)
    have hp := (List.mem_filter.mp hmf).2
    rcases (Bool.and_eq_true _ _).mp hp with ⟨hp1, hpd⟩
    rcases (Bool.and_eq_true _ _).mp hp1 with ⟨hpn, hpm⟩
    rw [← hre, ← hme]
    refine ⟨rfl, by simpa using hpm, hpn, ?_⟩
    intro a ha
    have hd := of_decide_eq_true hpd
    rw [ha] at hd
    simpa using hd

/-- Witness for `senderOnlyQuerySpec` at a one-message store and pattern `ali`. -/
theorem senderOnlyQuerySpecWitness :
    (({ query := none, fro := some "ali", after := none, limit := 10, context := 2 } : SearchOptions).fro = some "ali" ∧
      hasTextQuery ({ query := none, fro := some "ali", after := none, limit := 10, context := 2 } : SearchOptions).query = false ∧
      searchModel (some [exm]) (fun _ => [])
          { query := none, fro := some "ali", after := none, limit := 10, context := 2 }
        = .ok [{ result := { message := exm, score := 1, matchedTerms := [] }, before := [], after := [] }]) ∧
    (([({ result := { message := exm, score := 1, matchedTerms := [] }, before := [], after := [] } :
        SearchResultWithContext)]).length ≤ 10 ∧
      ([({ result := { message := exm, score := 1, matchedTerms := [] }, before := [], after := [] } :
        SearchResultWithContext)]).Pairwise (fun a b => b.result.message.date ≤ a.result.message.date) ∧
      ∀ rc ∈ [({ result := { message := exm, score := 1, matchedTerms := [] }, before := [], after := [] } :
          SearchResultWithContext)],
        rc.result.score = 1 ∧
        rc.result.message.isFromMe = false ∧
        needleIn (lowerData "ali") (lowerData rc.result.message.sender) = true ∧
        ∀ a, ({ query := none, fro := some "ali", after := none, limit := 10, context := 2 } :
          SearchOptions).after = some a → a ≤ rc.result.message.date) :=
  ⟨⟨rfl, rfl, rfl⟩,
    senderOnlyQuerySpec [exm] (fun _ => [])
      { query := none, fro := some "ali", after := none, limit := 10, context := 2 } "ali"
      [{ result := { message := exm, score := 1, matchedTerms := [] }, before := [], after := [] }]
      rfl rfl rfl⟩

/-- Claim C8: a text search with a sender or date filter present draws its
results from the first `20 × limit` filter-surviving fuzzy candidates, keeps
only candidates passing the sender/self-authorship/date predicate, and
truncates to `limit`: at most `limit` results are returned and every returned
result satisfies the predicate. -/
theorem textSearchFilteredLimit (index : String → List SearchResult) (q : String)
    (fro : Option String) (after : Option Nat) (limit : Nat)
    (hfil : fro.isSome = true ∨ after.isSome = true) :
    (searchByText index q fro after limit).length ≤ limit ∧
    (∀ r ∈ searchByText index q fro after limit,
      r ∈ (fuzzyFiltered index q fro).take (limit * 20)) ∧
    (∀ r ∈ searchByText index q fro after limit, ∀ f, fro = some f →
      r.message.isFromMe = false ∧ needleIn (lowerData f) (lowerData r.message.sender) = true) ∧
    (∀ r ∈ searchByText index q fro after limit, ∀ a, after = some a →
      a ≤ r.message.date) := by
  have hsl : (if fro.isSome || after.isSome then limit * 20 else limit) = limit * 20 := by
    rcases hfil with h | h <;> simp [h]
  by_cases he : (fuzzyFiltered index q fro).isEmpty
  · have hempty : searchByText index q fro after limit = [] := by
      simp [searchByText, he]
    rw [hempty]
    exact ⟨by simp, by simp, by simp, by simp⟩
  · have hef : (fuzzyFiltered index q fro).isEmpty = false := Bool.eq_false_iff.mpr he
    have hst : searchByText index q fro after limit
        = ((match after with
            | some a => if a ≠ 0 then ((fuzzyFiltered index q fro).take (limit * 20)).filter
                (fun r : SearchResult => decide (a ≤ r.message.date))
              else (fuzzyFiltered index q fro).take (limit * 20)
            | none => (fuzzyFiltered index q fro).take (limit * 20)).take limit) := by
      simp only [searchByText, hef, Bool.false_eq_true, if_false, hsl]
    have hsub : ∀ r ∈ searchByText index q fro after limit,
        r ∈ (fuzzyFiltered index q fro).take (limit * 20) := by
      intro r hr
      rw [hst] at hr
      have hr2 := (List.take_sublist _ _).subset hr
      cases after with
      | none => exact hr2
      | some a =>
        have hr3 : r ∈ (if a ≠ 0 then ((fuzzyFiltered index q fro).take (limit * 20)).filter
            (fun r : SearchResult => decide (a ≤ r.message.date))
          else (fuzzyFiltered index q fro).take (limit * 20)) := hr2
        by_cases ha : a ≠ 0
        · rw [if_pos ha] at hr3
          exact List.mem_of_mem_filter hr3
        · rw [if_neg ha] at hr3
          exact hr3
    refine ⟨?_, hsub, ?_, ?_⟩
    · rw [hst]
      exact List.length_take_le _ _
    · intro r hr f hf
      subst hf
      have hmem : r ∈ (index q).filter (senderPred f) :=
        (List.take_sublist _ _).subset (hsub r hr)
      have hp := (List.mem_filter.mp hmem).2
      rcases (Bool.and_eq_true _ _).mp hp with ⟨h1, h2⟩
      exact ⟨by simpa using h1, h2⟩
    · intro r hr a ha
      subst ha
      by_cases h0 : a ≠ 0
      · rw [hst] at hr
        have hr2 := (List.take_sublist _ _).subset hr
        have hr3 : r ∈ (if a ≠ 0 then ((fuzzyFiltered index q fro).take (limit * 20)).filter
            (fun r : SearchResult => decide (a ≤ r.message.date))
          else (fuzzyFiltered index q fro).take (limit * 20)) := hr2
        rw [if_pos h0] at hr3
        exact of_decide_eq_true (List.mem_filter.mp hr3).2
      · have ha0 : a = 0 := by omega
        rw [ha0]
        exact Nat.zero_le _

/-- Witness for `textSearchFilteredLimit` with a sender filter present. -/
theorem textSearchFilteredLimitWitness :
    ((some "ali" : Option String).isSome = true ∨ (none : Option Nat).isSome = true) ∧
    ((searchByText (fun _ => [{ message := exm, score := 1, matchedTerms := [] }]) "hi"
        (some "ali") none 3).length ≤ 3 ∧
      (∀ r ∈ searchByText (fun _ => [{ message := exm, score := 1, matchedTerms := [] }]) "hi"
          (some "ali") none 3,
        r ∈ (fuzzyFiltered (fun _ => [{ message := exm, score := 1, matchedTerms := [] }]) "hi"
          (some "ali")).take (3 * 20)) ∧
      (∀ r ∈ searchByText (fun _ => [{ message := exm, score := 1, matchedTerms := [] }]) "hi"
          (some "ali") none 3, ∀ f, (some "ali" : Option String) = some f →
        r.message.isFromMe = false ∧ needleIn (lowerData f) (lowerData r.message.sender) = true) ∧
      (∀ r ∈ searchByText (fun _ => [{ message := exm, score := 1, matchedTerms := [] }]) "hi"
          (some "ali") none 3, ∀ a, (none : Option Nat) = some a → a ≤ r.message.date)) :=
  ⟨Or.inl rfl,
    textSearchFilteredLimit (fun _ => [{ message := exm, score := 1, matchedTerms := [] }]) "hi"
      (some "ali") none 3 (Or.inl rfl)⟩

/-- Every aggregate row produced by `getContactsModel` counts and dates only
the eligible (non-empty-sender, non-self-authored) messages of its sender. -/
theorem getContacts_shape (store : List Msg) (limit : Nat) (c : ContactInfo)
    (hc : c ∈ getContactsModel store limit) :
    c.messageCount = ((store.filter eligibleContact).filter (fun x => x.sender == c.name)).length ∧
    c.lastMessageDate = (((store.filter eligibleContact).filter (fun x => x.sender == c.name)).map
      (fun x => x.date)).foldl Nat.max 0 := by
  unfold getContactsModel at hc
  have h1 := (List.take_sublist _ _).subset hc
  have h2 := (List.perm_insertionSort contactDesc _).subset h1
  rcases List.mem_map.mp h2 with ⟨s, _, he⟩
  rw [← he]
  exact ⟨rfl, rfl⟩

/-- Claim C9: the contact aggregation ranges only over messages that are not
self-authored and have a non-empty sender: prepending a self-authored message
or an empty-sender message to the store leaves `getContacts` unchanged, and
every returned row's count and last-activity are computed from the eligible
messages of its sender only. -/
theorem contactsExcludeSelfAuthored (store : List Msg) (limit : Nat) (m m2 : Msg)
    (hm : m.isFromMe = true) (hm2 : m2.sender = "") :
    getContactsModel (m :: store) limit = getContactsModel store limit ∧
    getContactsModel (m2 :: store) limit = getContactsModel store limit ∧
    ∀ c ∈ getContactsModel store limit,
      c.messageCount = ((store.filter eligibleContact).filter (fun x => x.sender == c.name)).length ∧
      c.lastMessageDate = (((store.filter eligibleContact).filter (fun x => x.sender == c.name)).map
        (fun x => x.date)).foldl Nat.max 0 := by
  have hfm : (m :: store).filter eligibleContact = store.filter eligibleContact := by
    simp [eligibleContact, hm]
  have hfm2 : (m2 :: store).filter eligibleContact = store.filter eligibleContact := by
    simp [eligibleContact, hm2]
  refine ⟨?_, ?_, fun c hc => getContacts_shape store limit c hc⟩
  · unfold getContactsModel
    rw [hfm]
  · unfold getContactsModel
    rw [hfm2]

/-- Witness for `contactsExcludeSelfAuthored` at the one-message store. -/
theorem contactsExcludeSelfAuthoredWitness :
    (({ exm with isFromMe := true } : Msg).isFromMe = true ∧
      ({ exm with sender := "" } : Msg).sender = "") ∧
    (getContactsModel ({ exm with isFromMe := true } :: [exm]) 5 = getContactsModel [exm] 5 ∧
      getContactsModel ({ exm with sender := "" } :: [exm]) 5 = getContactsModel [exm] 5 ∧
      ∀ c ∈ getContactsModel [exm] 5,
        c.messageCount = ((([exm] : List Msg).filter eligibleContact).filter
          (fun x => x.sender == c.name)).length ∧
        c.lastMessageDate = (((([exm] : List Msg).filter eligibleContact).filter
          (fun x => x.sender == c.name)).map (fun x => x.date)).foldl Nat.max 0) :=
  ⟨⟨rfl, rfl⟩,
    contactsExcludeSelfAuthored [exm] 5 { exm with isFromMe := true } { exm with sender := "" }
      rfl rfl⟩

end SlackMessages
